import Mathlib

/-!
Verification development for the bookkeeping CSV-processing pipeline
(`BookkeepingProcessor` in `web_app.py`).

The pipeline is embedded shallowly:

* A CSV cell of the two account-reference columns is a `Cell`: genuinely
  missing (`na`, pandas `NaN`/`pd.NA`), a string, or an integer (pandas'
  CSV reader parses an all-numeric column to numbers).  Cells whose text
  parses to a number with a non-zero fractional part are treated as
  unparseable by the model; on such inputs the source's
  `astype("Int64")` raises instead of producing a row, so no claim is
  decided by them.
* Money amounts (`InstallmentPaymentPrice` / `InstallmentProductPrice`)
  are `Option ℚ` — an exact-rational model of the float columns, `none`
  standing for `NaN`; all sums skip `none` exactly as pandas sums skip
  `NaN`.
* Dates are carried as their normalized `YYYY-MM-DD` strings
  (`Option String`, `none` for an unparseable/missing date), which is
  the form `prepare_columns` reduces them to before any date is
  consumed by the parts modelled here.
* A pandas boolean-mask selection is `selectBy`; `df.groupby(k)` is
  modelled by deduplicated keys with per-key filtered sums (the source
  only consumes group sums, counts and membership, none of which depend
  on pandas' sorted group order).
-/

set_option maxHeartbeats 1000000

namespace Bookkeeping

/-- A raw table cell of the reference columns: missing, textual, or numeric. -/
inductive Cell where
  | na : Cell
  | s (v : String) : Cell
  | i (v : Int) : Cell
deriving DecidableEq, Repr, Inhabited

/-- Digit value of a character, `none` if not a decimal digit. -/
def digitVal (c : Char) : Option Nat :=
  if c.isDigit then some (c.toNat - Char.toNat (Char.ofNat 48)) else none

/-- Parse a non-empty digit string into a natural number. -/
def parseDigitsAux : List Char → Nat → Option Nat
  | [], acc => some acc
  | c :: cs, acc =>
    match digitVal c with
    | some d => parseDigitsAux cs (acc * 10 + d)
    | none => none

/-- Parse a non-empty list of digit characters; `none` on empty or non-digit. -/
def parseNatStr : List Char → Option Nat
  | [] => none
  | cs => parseDigitsAux cs 0

/-- Model of `pd.to_numeric(errors="coerce")` followed by `astype("Int64")`
on a string: optional sign, digits, optionally a fractional part that is all
zeros (`"123"`, `"-7"`, `"123.0"` parse; anything else coerces to missing). -/
def parseIntStr (str : String) : Option Int :=
  let cs := str.toList
  let signed : Bool × List Char :=
    match cs with
    | c :: rest => if c = '-' then (true, rest) else (false, cs)
    | [] => (false, cs)
  let ip := signed.2.takeWhile (fun c => c ≠ '.')
  let fp := signed.2.dropWhile (fun c => c ≠ '.')
  let fracOk : Bool :=
    match fp with
    | [] => true
    | _ :: frac => frac.all (fun c => c = '0')
  match parseNatStr ip with
  | some n => if fracOk then some (if signed.1 then -(n : Int) else (n : Int)) else none
  | none => none

/-- `pd.to_numeric(cell, errors="coerce")` landing in the nullable-integer
dtype: missing stays missing, numbers stay, strings are parsed. -/
def toNum : Cell → Option Int
  | Cell.na => none
  | Cell.i v => some v
  | Cell.s v => parseIntStr v

/-- `astype(str)` after the nullable-integer cast: an integer renders as its
decimal string, a missing value renders as `"<NA>"`. -/
def keyStr (c : Cell) : String :=
  match toNum c with
  | some n => toString n
  | none => "<NA>"

/-- `replace({"": pd.NA, "nan": pd.NA, "NaN": pd.NA})` on one cell. -/
def replaceNaLike (c : Cell) : Cell :=
  match c with
  | Cell.s v => if v = "" ∨ v = "nan" ∨ v = "NaN" then Cell.na else c
  | _ => c

/-- `Series.ffill`: each missing cell inherits the nearest preceding
non-missing cell (`prev`); leading missing cells stay missing. -/
def ffillAux : Option Cell → List Cell → List Cell
  | _, [] => []
  | prev, Cell.na :: cs =>
    match prev with
    | some p => p :: ffillAux (some p) cs
    | none => Cell.na :: ffillAux none cs
  | _, Cell.s v :: cs => Cell.s v :: ffillAux (some (Cell.s v)) cs
  | _, Cell.i v :: cs => Cell.i v :: ffillAux (some (Cell.i v)) cs

def ffill (l : List Cell) : List Cell := ffillAux none l

/-- One input row, with the seven fields the pipeline consumes. -/
structure Row where
  transactionId : Int
  date : Option String
  productName : String
  debit : Option ℚ
  credit : Option ℚ
  paymentExtRef : Cell
  productExtRef : Cell
deriving DecidableEq, Repr, Inhabited

/-- Rows paired with their positional index (pandas row labels). -/
def idxFrom : Nat → List α → List (Nat × α)
  | _, [] => []
  | n, r :: rs => (n, r) :: idxFrom (n + 1) rs

/-- `block_key` of `split_data`: replace empty/textual-nan by missing,
forward-fill, numeric-coerce, and render as an integer-like string. -/
def block_key (df : List Row) : List String :=
  (ffill (df.map (fun r => replaceNaLike r.paymentExtRef))).map keyStr

/-- Indexed rows paired with their block key. -/
def keyedRows (df : List Row) : List ((Nat × Row) × String) :=
  (idxFrom 0 df).zip (block_key df)

/-- `df[block_key == "79991"]` — the candidate rows. -/
def only_79991 (df : List Row) : List (Nat × Row) :=
  ((keyedRows df).filter (fun p => decide (p.2 = "79991"))).map (fun p => p.1)

/-- `df[block_key != "79991"]` — the rest bucket at segmentation time. -/
def rest_rows (df : List Row) : List (Nat × Row) :=
  ((keyedRows df).filter (fun p => decide (p.2 ≠ "79991"))).map (fun p => p.1)

/-- `pd.to_numeric(only_79991["InstallmentProductExtRef"], errors="coerce")`. -/
def candCodes (cands : List (Nat × Row)) : List (Option Int) :=
  cands.map (fun p => toNum p.2.productExtRef)

/-- A candidate row after `split_data` overwrote its secondary reference
field with the numeric coercion `code`; all other fields live in `row`. -/
structure CRow where
  idx : Nat
  row : Row
  code : Option Int
deriving DecidableEq, Repr, Inhabited

def candRows (cands : List (Nat × Row)) : List CRow :=
  cands.map (fun p => ⟨p.1, p.2, toNum p.2.productExtRef⟩)

/-- `seg_id = code.isna().cumsum()`: running count of missing codes. -/
def segIdsAux : Nat → List (Option Int) → List Nat
  | _, [] => []
  | acc, c :: cs =>
    let acc' := if c.isNone then acc + 1 else acc
    acc' :: segIdsAux acc' cs

def segIds (codes : List (Option Int)) : List Nat := segIdsAux 0 codes

/-- `(code == 4118).groupby(seg_id).transform("any")`: a row's mark is true
iff some row sharing its segment id has code 4118. -/
def seg_has_4118 (codes : List (Option Int)) : List Bool :=
  let sids := segIds codes
  sids.map (fun sid => (sids.zip codes).any (fun q => decide (q.1 = sid ∧ q.2 = some 4118)))

/-- Boolean-mask selection `df[mask]`. -/
def selectBy : List α → List Bool → List α
  | [], _ => []
  | _, [] => []
  | x :: xs, b :: bs => if b then x :: selectBy xs bs else selectBy xs bs

structure SplitResult where
  without_advertisement : List CRow
  advertisment : List CRow
  rest : List (Nat × Row)
deriving DecidableEq, Repr

/-- `BookkeepingProcessor.split_data`. -/
def split_data (df : List Row) : SplitResult :=
  let cands := only_79991 df
  let codes := candCodes cands
  let crows := candRows cands
  let ms := seg_has_4118 codes
  { without_advertisement := selectBy crows (ms.map not)
    advertisment := selectBy crows ms
    rest := rest_rows df }

/-- A row after `prepare_columns`: columns renamed to the output vocabulary,
the date reduced to its `YYYY-MM-DD` string, the original positional index
kept for traceability. -/
structure NRow where
  idx : Nat
  transaction : Int
  txDate : Option String
  productName : String
  debit : Option ℚ
  credit : Option ℚ
  debitAccount : Cell
  creditAccount : Cell
deriving DecidableEq, Repr, Inhabited

/-- The overwritten secondary reference as a cell of the output table. -/
def cellOfCode : Option Int → Cell
  | some n => Cell.i n
  | none => Cell.na

def normRowRest (p : Nat × Row) : NRow :=
  { idx := p.1, transaction := p.2.transactionId, txDate := p.2.date,
    productName := p.2.productName, debit := p.2.debit, credit := p.2.credit,
    debitAccount := p.2.paymentExtRef, creditAccount := p.2.productExtRef }

def normRowCand (c : CRow) : NRow :=
  { idx := c.idx, transaction := c.row.transactionId, txDate := c.row.date,
    productName := c.row.productName, debit := c.row.debit, credit := c.row.credit,
    debitAccount := c.row.paymentExtRef, creditAccount := cellOfCode c.code }

/-- `col.max()` over the date-string column, skipping missing values;
`""` when every value is missing (the source's `else ''` branch). -/
def maxDateStr (rows : List NRow) : String :=
  (rows.filterMap (fun r => r.txDate)).foldl max ""

/-- The order-date column added by `prepare_columns`: `none` models the
column being absent — the source adds it only when the bucket is non-empty
(`if ... and len(df_obj) > 0`). -/
def mkOrderDate (rows : List NRow) : Option String :=
  if rows.isEmpty then none else some (maxDateStr rows)

/-- A bucket after `prepare_columns`. -/
structure NBucket where
  rows : List NRow
  orderDate : Option String
deriving DecidableEq, Repr

/-- `prepare_columns` restricted to the two candidate buckets: rename only,
then the order-date column. -/
def prepare_columns_cand (b : List CRow) : NBucket :=
  let rows := b.map normRowCand
  { rows := rows, orderDate := mkOrderDate rows }

/-- `prepare_columns` restricted to the rest bucket: rename, drop the
`"Other Payment"` rows, then the order-date column. -/
def prepare_columns_rest (b : List (Nat × Row)) : NBucket :=
  let rows := (b.map normRowRest).filter (fun n => decide (n.productName ≠ "Other Payment"))
  { rows := rows, orderDate := mkOrderDate rows }

/-- A pandas column sum: `NaN` entries are skipped. -/
def colSum (f : NRow → Option ℚ) (rows : List NRow) : ℚ :=
  (rows.filterMap f).sum

/-- The group keys of `df.groupby('transaction')` (order irrelevant here). -/
def txIds (rows : List NRow) : List Int :=
  (rows.map (fun r => r.transaction)).dedup

/-- Per-transaction debit sum. -/
def txDebit (rows : List NRow) (t : Int) : ℚ :=
  colSum (fun r => r.debit) (rows.filter (fun r => decide (r.transaction = t)))

/-- Per-transaction credit sum. -/
def txCredit (rows : List NRow) (t : Int) : ℚ :=
  colSum (fun r => r.credit) (rows.filter (fun r => decide (r.transaction = t)))

/-- `transaction_balance['difference']`. -/
def txDiff (rows : List NRow) (t : Int) : ℚ := txDebit rows t - txCredit rows t

/-- Membership mask of `abs(difference) > 0.01` (the unbalanced selection). -/
def txUnbalanced (rows : List NRow) (t : Int) : Bool := decide (1/100 < |txDiff rows t|)

/-- Membership mask of `abs(difference) <= 0.01` (the balanced selection). -/
def txBalancedB (rows : List NRow) (t : Int) : Bool := decide (|txDiff rows t| ≤ 1/100)

/-- The transaction ids of the unbalanced selection. -/
def unbalancedTxIds (rows : List NRow) : List Int :=
  (txIds rows).filter (txUnbalanced rows)

/-- One bucket's entry of the validation report. -/
structure BalanceInfo where
  totalDebit : ℚ
  totalCredit : ℚ
  difference : ℚ
  balanced : Bool
  unbalancedCount : Option Nat
deriving DecidableEq, Repr

/-- `BookkeepingProcessor.get_balance_validation` for one bucket.
`hasTx`/`hasDebit`/`hasCredit` model the three membership tests
`'...' in df.columns` on the transaction-id, debit and credit columns;
`Except.ok none` models the bucket being skipped because it is empty.
When all three columns are present, the per-transaction branch sums over
the grouped table (`transaction_balance[...].sum()`).  Otherwise the
source's else branch reads the debit and credit columns unconditionally:
with both present it produces the column-sum fallback, whose result dict
has no unbalanced-count key (`unbalancedCount := none`); with either
absent that read raises `KeyError`, modelled as `Except.error ()`. -/
def get_balance_validation (hasTx hasDebit hasCredit : Bool) (rows : List NRow) :
    Except Unit (Option BalanceInfo) :=
  if rows.isEmpty then Except.ok none
  else if hasTx && hasDebit && hasCredit then
    let d := ((txIds rows).map (txDebit rows)).sum
    let c := ((txIds rows).map (txCredit rows)).sum
    Except.ok (some { totalDebit := d, totalCredit := c, difference := d - c,
                      balanced := decide (|d - c| ≤ 1/100),
                      unbalancedCount := some (unbalancedTxIds rows).length })
  else if hasDebit && hasCredit then
    let d := colSum (fun r => r.debit) rows
    let c := colSum (fun r => r.credit) rows
    Except.ok (some { totalDebit := d, totalCredit := c, difference := d - c,
                      balanced := decide (|d - c| ≤ 1/100), unbalancedCount := none })
  else Except.error ()

/-- `account in [70001, 70100]` (a Python `int` comparison: only a numeric
cell can match). -/
def isExcludedAccount (c : Cell) : Bool :=
  decide (c = Cell.i 70001 ∨ c = Cell.i 70100)

/-- `df[df['credit account'].notna() & (df['credit'] > 0)]`. -/
def revenueRows (rows : List NRow) : List NRow :=
  rows.filter (fun r =>
    decide (r.creditAccount ≠ Cell.na) &&
    match r.credit with
    | some q => decide (0 < q)
    | none => false)

/-- The `(credit account, product)` group keys of the revenue grouping. -/
def groupKeys (rows : List NRow) : List (Cell × String) :=
  ((revenueRows rows).map (fun r => (r.creditAccount, r.productName))).dedup

/-- One group's credit sum. -/
def groupCredit (rows : List NRow) (k : Cell × String) : ℚ :=
  colSum (fun r => r.credit)
    ((revenueRows rows).filter (fun r => decide (r.creditAccount = k.1 ∧ r.productName = k.2)))

/-- The emitted summary entries: excluded accounts are skipped
(`continue`), and a dict entry is emitted only `if amount > 0`. -/
def summaryEntries (rows : List NRow) : List (Cell × String × ℚ) :=
  ((groupKeys rows).filter (fun k => !(isExcludedAccount k.1))).filterMap
    (fun k =>
      let a := groupCredit rows k
      if 0 < a then some (k.1, k.2, a) else none)

/-- The summary sheet's content relevant here: the surviving revenue
entries and the numeric totals of the appended grand-total row
(the source renders them with `f"[value]:,.0f"` formatting, which is
display-only and not modelled). -/
structure Summary where
  entries : List (Cell × String × ℚ)
  totalDebit : ℚ
  totalCredit : ℚ
deriving DecidableEq, Repr

/-- `BookkeepingProcessor.create_excel_summary` on the rest bucket:
`total_debit = 0` is the literal source assignment; the credit total sums
the whole credit column whenever the bucket is non-empty. -/
def create_excel_summary (restBucket : NBucket) : Summary :=
  { entries := summaryEntries restBucket.rows
    totalDebit := 0
    totalCredit :=
      if restBucket.rows.isEmpty then 0 else colSum (fun r => r.credit) restBucket.rows }

/-! ### Spec-side definitions

These follow the spec's words, for comparison with the source-derived
definitions above. -/

/-- Spec-side: the nearest non-missing cell at or before the end of the
list (`none` when every cell is missing). -/
def lastNonNa : List Cell → Option Cell
  | [] => none
  | c :: cs =>
    match lastNonNa cs with
    | some x => some x
    | none => if c = Cell.na then none else some c

/-- Number of missing codes in a list. -/
def countNone (codes : List (Option Int)) : Nat :=
  codes.countP (fun c => c.isNone)

/-! ### Concrete example data used by witnesses and counterexamples -/

/-- A transaction split over two rows: debit 60+40 = 100, credit
50+49.995 = 99.995. -/
def exRowsBalanced : List NRow :=
  [⟨0, 7, some "2025-01-01", "P", some 60, some 50, Cell.na, Cell.na⟩,
   ⟨1, 7, some "2025-01-01", "P", some 40, some (49995/1000 : ℚ), Cell.na, Cell.na⟩]

/-- One transaction with debit 100 and credit 99.98. -/
def exRowsUnbalanced : List NRow :=
  [⟨0, 7, some "2025-01-02", "P", some 100, some (4999/50 : ℚ), Cell.na, Cell.na⟩]

/-- A rest bucket with a single row of the excluded account 70001,
product "X", credit 50 — the example of the excluded-accounts claim. -/
def exBucketExcluded : NBucket :=
  ⟨[⟨0, 7, some "2025-01-01", "X", some 0, some 50, Cell.na, Cell.i 70001⟩],
   some "2025-01-01"⟩

/-- A rest bucket with a single row of the non-excluded account 4000. -/
def exBucketKept : NBucket :=
  ⟨[⟨0, 7, some "2025-01-01", "Y", some 0, some 30, Cell.na, Cell.i 4000⟩],
   some "2025-01-01"⟩

/-- A one-row table whose only row has payment reference 5: its candidate
buckets are empty. -/
def exDfNoCand : List Row :=
  [⟨1, some "2025-01-01", "A", some 1, some 1, Cell.i 5, Cell.na⟩]

/-- A five-row table: rows 0–1 one candidate segment containing code 4118,
row 2 a candidate segment without it, rows 3–4 the rest key, row 4 an
"Other Payment" row. -/
def exDf : List Row :=
  [⟨1, some "2025-01-01", "A", some 10, some 10, Cell.i 79991, Cell.i 4118⟩,
   ⟨2, some "2025-01-02", "B", some 20, some 20, Cell.s "", Cell.i 5⟩,
   ⟨3, some "2025-01-03", "C", some 30, some 30, Cell.i 79991, Cell.na⟩,
   ⟨4, some "2025-01-04", "D", some 40, some 40, Cell.i 5555, Cell.i 70001⟩,
   ⟨5, some "2025-01-05", "Other Payment", some 50, some 50, Cell.i 5555, Cell.i 70100⟩]

/-- A table whose first two rows have a missing payment reference. -/
def exDfLeadingNa : List Row :=
  [⟨1, some "2025-01-01", "A", some 1, some 1, Cell.s "nan", Cell.i 4118⟩,
   ⟨2, some "2025-01-02", "B", some 2, some 2, Cell.na, Cell.i 4118⟩,
   ⟨3, some "2025-01-03", "C", some 3, some 3, Cell.i 79991, Cell.i 9⟩]

/-- A candidate row with no amounts (both sums missing). -/
def exRowPlain : Row :=
  ⟨1, some "2025-01-01", "A", none, none, Cell.i 79991, Cell.i 4118⟩

/-- A one-row table whose row is a candidate carrying code 4118. -/
def exDfPlain : List Row := [exRowPlain]

/-- The candidate row of `exDfPlain` after segmentation. -/
def exCRow : CRow := ⟨0, exRowPlain, some 4118⟩

/-! ### Generic list lemmas -/

theorem zip_get? {α β : Type} : ∀ (l₁ : List α) (l₂ : List β) (j : Nat),
    (l₁.zip l₂).get? j =
      match l₁.get? j, l₂.get? j with
      | some a, some b => some (a, b)
      | _, _ => none
  | [], _, _ => by simp
  | _ :: _, [], _ => by simp
  | a :: l₁, b :: l₂, 0 => rfl
  | a :: l₁, b :: l₂, j + 1 => by
      simpa using zip_get? l₁ l₂ j

theorem idxFrom_length {α : Type} : ∀ (n : Nat) (l : List α),
    (idxFrom n l).length = l.length
  | _, [] => rfl
  | n, _ :: rs => by simp [idxFrom, idxFrom_length (n + 1) rs]

theorem idxFrom_get? {α : Type} : ∀ (n : Nat) (l : List α) (j : Nat),
    (idxFrom n l).get? j = (l.get? j).map (fun r => (n + j, r))
  | _, [], j => by simp [idxFrom]
  | n, r :: rs, 0 => rfl
  | n, r :: rs, j + 1 => by
      have ih := idxFrom_get? (n + 1) rs j
      simp only [idxFrom, List.get?]
      rw [ih]
      have : n + 1 + j = n + (j + 1) := by omega
      rw [this]

theorem idxFrom_map_fst {α : Type} : ∀ (n : Nat) (l : List α),
    (idxFrom n l).map Prod.fst = List.range' n l.length
  | _, [] => rfl
  | n, r :: rs => by
      simp [idxFrom, List.range', idxFrom_map_fst (n + 1) rs]

theorem selectBy_sublist {α : Type} : ∀ (l : List α) (bs : List Bool),
    (selectBy l bs).Sublist l
  | [], _ => by simp [selectBy]
  | _ :: _, [] => by simp [selectBy]
  | x :: xs, b :: bs => by
      by_cases hb : b = true
      · subst hb
        simpa [selectBy] using (selectBy_sublist xs bs).cons₂ x
      · have hb' : b = false := by simpa using hb
        subst hb'
        simpa [selectBy] using (selectBy_sublist xs bs).cons x

theorem selectBy_append_perm {α : Type} : ∀ (l : List α) (bs : List Bool),
    bs.length = l.length →
    (selectBy l bs ++ selectBy l (bs.map not)).Perm l
  | [], bs, _ => by simp [selectBy]
  | x :: xs, [], h => by simp at h
  | x :: xs, b :: bs, h => by
      have hlen : bs.length = xs.length := by simpa using h
      have ih := selectBy_append_perm xs bs hlen
      by_cases hb : b = true
      · subst hb
        simpa [selectBy] using ih.cons x
      · have hb' : b = false := by simpa using hb
        subst hb'
        simp only [selectBy, List.map, Bool.not_false, if_neg, if_pos, Bool.false_eq_true,
          not_false_iff, ite_false, ite_true]
        exact List.perm_middle.trans (ih.cons x)

/-! ### Length lemmas for the pipeline -/

theorem ffillAux_length : ∀ (prev : Option Cell) (l : List Cell),
    (ffillAux prev l).length = l.length
  | _, [] => rfl
  | prev, Cell.na :: cs => by
      cases prev <;> simp [ffillAux, ffillAux_length]
  | prev, Cell.s v :: cs => by simp [ffillAux, ffillAux_length]
  | prev, Cell.i v :: cs => by simp [ffillAux, ffillAux_length]

theorem ffill_length (l : List Cell) : (ffill l).length = l.length :=
  ffillAux_length none l

theorem block_key_length (df : List Row) : (block_key df).length = df.length := by
  simp [block_key, ffill_length]

theorem keyedRows_length (df : List Row) : (keyedRows df).length = df.length := by
  simp [keyedRows, idxFrom_length, block_key_length]

theorem segIdsAux_length : ∀ (acc : Nat) (codes : List (Option Int)),
    (segIdsAux acc codes).length = codes.length
  | _, [] => rfl
  | acc, c :: cs => by simp [segIdsAux, segIdsAux_length]

theorem segIds_length (codes : List (Option Int)) :
    (segIds codes).length = codes.length :=
  segIdsAux_length 0 codes

theorem seg_has_4118_length (codes : List (Option Int)) :
    (seg_has_4118 codes).length = codes.length := by
  simp [seg_has_4118, segIds_length]

theorem candCodes_length (cands : List (Nat × Row)) :
    (candCodes cands).length = cands.length := by
  simp [candCodes]

theorem candRows_length (cands : List (Nat × Row)) :
    (candRows cands).length = cands.length := by
  simp [candRows]

/-! ### The keyed-rows table -/

theorem keyedRows_get? (df : List Row) (j : Nat) (hj : j < df.length) :
    (keyedRows df).get? j =
      some ((j, df.get ⟨j, hj⟩), (block_key df).getD j "") := by
  have hk : j < (block_key df).length := by rw [block_key_length]; exact hj
  rw [keyedRows, zip_get?, idxFrom_get?, List.get?_eq_get hj,
    List.get?_eq_get hk]
  simp [List.getD_eq_getElem?_getD, List.getElem?_eq_getElem hk]

/-- Membership of an original row index in a key-filtered selection is
decided exactly by its block key. -/
theorem mem_keyFiltered_iff (df : List Row) (p : String → Bool) (j : Nat)
    (hj : j < df.length) :
    (j ∈ (((keyedRows df).filter (fun q => p q.2)).map (fun q => q.1.1)) ↔
      p ((block_key df).getD j "") = true) := by
  constructor
  · rintro hmem
    rcases List.mem_map.1 hmem with ⟨q, hq, hq1⟩
    rcases List.mem_filter.1 hq with ⟨hqmem, hqp⟩
    rcases List.mem_iff_get?.1 hqmem with ⟨m, hm⟩
    have hmlt : m < df.length := by
      have : m < (keyedRows df).length := by
        by_contra hge
        rw [List.get?_eq_none.2 (by omega)] at hm
        exact Option.noConfusion hm
      simpa [keyedRows_length] using this
    rw [keyedRows_get? df m hmlt] at hm
    have hq' := Option.some.inj hm
    subst hq'
    simp only at hq1
    subst hq1
    exact hqp
  · intro hp
    have hmem : ((j, df.get ⟨j, hj⟩), (block_key df).getD j "") ∈ keyedRows df :=
      List.mem_iff_get?.2 ⟨j, keyedRows_get? df j hj⟩
    exact List.mem_map.2 ⟨_, List.mem_filter.2 ⟨hmem, hp⟩, rfl⟩

/-! ### Forward-fill characterization -/

theorem lastNonNa_cons (c : Cell) (cs : List Cell) :
    lastNonNa (c :: cs) =
      match lastNonNa cs with
      | some x => some x
      | none => if c = Cell.na then none else some c := rfl

theorem lastNonNa_of_all_na : ∀ (l : List Cell), (∀ c ∈ l, c = Cell.na) →
    lastNonNa l = none
  | [], _ => rfl
  | c :: cs, h => by
      have hc : c = Cell.na := h c (by simp)
      have ih := lastNonNa_of_all_na cs (fun x hx => h x (by simp [hx]))
      rw [lastNonNa_cons, ih, hc]
      simp

/-- The `ffill` recursion computes, at every position, the nearest
preceding (inclusive) non-missing cell — `prev` when the prefix is all
missing. -/
theorem ffillAux_get? : ∀ (prev : Option Cell) (l : List Cell) (j : Nat),
    j < l.length →
    (ffillAux prev l).get? j =
      some (match lastNonNa (l.take (j + 1)) with
            | some c => c
            | none => prev.getD Cell.na)
  | prev, [], j, hj => by simp at hj
  | prev, c :: cs, 0, _ => by
      cases c with
      | na =>
        cases prev with
        | none => simp [ffillAux, lastNonNa_cons, lastNonNa]
        | some p => simp [ffillAux, lastNonNa_cons, lastNonNa]
      | s v => simp [ffillAux, lastNonNa_cons, lastNonNa]
      | i v => simp [ffillAux, lastNonNa_cons, lastNonNa]
  | prev, c :: cs, j + 1, hj => by
      have hlt : j < cs.length := by simpa using hj
      have htake : (c :: cs).take (j + 1 + 1) = c :: cs.take (j + 1) := rfl
      rw [htake]
      cases c with
      | na =>
        cases prev with
        | none =>
          rw [show ffillAux none (Cell.na :: cs) = Cell.na :: ffillAux none cs from rfl]
          rw [show (Cell.na :: ffillAux none cs).get? (j + 1) = (ffillAux none cs).get? j from rfl]
          rw [ffillAux_get? none cs j hlt, lastNonNa_cons]
          cases hlast : lastNonNa (cs.take (j + 1)) <;> simp
        | some p =>
          rw [show ffillAux (some p) (Cell.na :: cs) = p :: ffillAux (some p) cs from rfl]
          rw [show (p :: ffillAux (some p) cs).get? (j + 1) = (ffillAux (some p) cs).get? j from rfl]
          rw [ffillAux_get? (some p) cs j hlt, lastNonNa_cons]
          cases hlast : lastNonNa (cs.take (j + 1)) <;> simp
      | s v =>
        rw [show ffillAux prev (Cell.s v :: cs) = Cell.s v :: ffillAux (some (Cell.s v)) cs from rfl]
        rw [show (Cell.s v :: ffillAux (some (Cell.s v)) cs).get? (j + 1) =
          (ffillAux (some (Cell.s v)) cs).get? j from rfl]
        rw [ffillAux_get? (some (Cell.s v)) cs j hlt, lastNonNa_cons]
        cases hlast : lastNonNa (cs.take (j + 1)) <;> simp
      | i v =>
        rw [show ffillAux prev (Cell.i v :: cs) = Cell.i v :: ffillAux (some (Cell.i v)) cs from rfl]
        rw [show (Cell.i v :: ffillAux (some (Cell.i v)) cs).get? (j + 1) =
          (ffillAux (some (Cell.i v)) cs).get? j from rfl]
        rw [ffillAux_get? (some (Cell.i v)) cs j hlt, lastNonNa_cons]
        cases hlast : lastNonNa (cs.take (j + 1)) <;> simp

/-- The block key at a position is the rendering of the nearest preceding
non-missing (after `replace`) payment reference, `"<NA>"` when there is
none. -/
theorem block_key_getD (df : List Row) (j : Nat) (hj : j < df.length) :
    (block_key df).getD j "" =
      (match lastNonNa ((df.map (fun r => replaceNaLike r.paymentExtRef)).take (j + 1)) with
       | some c => keyStr c
       | none => "<NA>") := by
  have hlen : j < (df.map (fun r => replaceNaLike r.paymentExtRef)).length := by simpa using hj
  rw [block_key, ffill, List.getD_eq_getElem?_getD, ← List.get?_eq_getElem?, List.get?_map,
    ffillAux_get? none _ j hlen]
  cases hlast : lastNonNa ((df.map (fun r => replaceNaLike r.paymentExtRef)).take (j + 1)) with
  | none => simp [keyStr, toNum]
  | some c => simp

/-! ### Segment-id characterization -/

theorem segIdsAux_get? : ∀ (acc : Nat) (codes : List (Option Int)) (j : Nat),
    j < codes.length →
    (segIdsAux acc codes).get? j = some (acc + countNone (codes.take (j + 1)))
  | _, [], j, hj => by simp at hj
  | acc, c :: cs, 0, _ => by
      cases hc : c <;>
        simp [segIdsAux, countNone, List.countP_cons, hc, Nat.add_comm]
  | acc, c :: cs, j + 1, hj => by
      have hlt : j < cs.length := by simpa using hj
      have hstep : segIdsAux acc (c :: cs) =
          (if c.isNone then acc + 1 else acc) ::
            segIdsAux (if c.isNone then acc + 1 else acc) cs := rfl
      rw [hstep]
      rw [show ((if c.isNone then acc + 1 else acc) ::
        segIdsAux (if c.isNone then acc + 1 else acc) cs).get? (j + 1) =
        (segIdsAux (if c.isNone then acc + 1 else acc) cs).get? j from rfl]
      rw [segIdsAux_get? _ cs j hlt]
      have htake : (c :: cs).take (j + 1 + 1) = c :: cs.take (j + 1) := rfl
      rw [htake]
      cases hc : c <;> simp [countNone, List.countP_cons, hc] <;> omega

theorem segIds_getD (codes : List (Option Int)) (j : Nat) (hj : j < codes.length) :
    (segIds codes).getD j 0 = countNone (codes.take (j + 1)) := by
  rw [segIds, List.getD_eq_getElem?_getD, ← List.get?_eq_getElem?,
    segIdsAux_get? 0 codes j hj]
  simp

/-- Two positions with non-missing codes share a segment id exactly when
every position between them (inclusive) has a non-missing code. -/
theorem segIds_eq_iff (codes : List (Option Int)) (j k : Nat) (hjk : j ≤ k)
    (hk : k < codes.length) :
    ((segIds codes).getD j 0 = (segIds codes).getD k 0 ↔
      ∀ m, j < m → m ≤ k → (codes.getD m none).isSome = true) := by
  have hj : j < codes.length := by omega
  rw [segIds_getD codes j hj, segIds_getD codes k hk]
  have hsplit : codes.take (k + 1) =
      codes.take (j + 1) ++ (codes.drop (j + 1)).take (k - j) := by
    have : k + 1 = (j + 1) + (k - j) := by omega
    rw [this, List.take_add]
  rw [hsplit]
  have hcount : countNone (codes.take (j + 1) ++ (codes.drop (j + 1)).take (k - j)) =
      countNone (codes.take (j + 1)) + countNone ((codes.drop (j + 1)).take (k - j)) := by
    simp [countNone]
  rw [hcount]
  constructor
  · intro heq m hjm hmk
    have hzero : countNone ((codes.drop (j + 1)).take (k - j)) = 0 := by omega
    have hall := List.countP_eq_zero.1 hzero
    have hmlt : m < codes.length := by omega
    have hidx : m - j - 1 < k - j := by omega
    have hget : ((codes.drop (j + 1)).take (k - j)).get? (m - j - 1) =
        codes.get? m := by
      rw [List.get?_take hidx, List.get?_drop]
      congr 1
      omega
    have hmem : codes.get ⟨m, hmlt⟩ ∈ (codes.drop (j + 1)).take (k - j) :=
      List.mem_iff_get?.2 ⟨m - j - 1, by rw [hget, List.get?_eq_get hmlt]⟩
    have hns := hall _ hmem
    rw [List.getD_eq_getElem?_getD, ← List.get?_eq_getElem?, List.get?_eq_get hmlt]
    cases hcm : codes.get ⟨m, hmlt⟩ with
    | none => rw [hcm] at hns; simp at hns
    | some v => simp
  · intro hall
    have hzero : countNone ((codes.drop (j + 1)).take (k - j)) = 0 := by
      rw [countNone, List.countP_eq_zero]
      intro x hx
      rcases List.mem_iff_get?.1 hx with ⟨i, hi⟩
      have hik : i < k - j := by
        by_contra hge
        rw [List.get?_take_eq_none (by omega)] at hi
        exact Option.noConfusion hi
      rw [List.get?_take hik, List.get?_drop] at hi
      have hm := hall (j + 1 + i) (by omega) (by omega)
      rw [List.getD_eq_getElem?_getD, ← List.get?_eq_getElem?, hi] at hm
      simp at hm
      cases x with
      | none => simp at hm
      | some v => simp
    omega

theorem get?_eq_some_getD {α : Type} (l : List α) (d : α) (j : Nat)
    (hj : j < l.length) : l.get? j = some (l.getD j d) := by
  rw [List.getD_eq_getElem?_getD, ← List.get?_eq_getElem?, List.get?_eq_get hj]
  simp

/-- The transform-any mark of a row holds exactly when some row with the
same segment id carries code 4118. -/
theorem seg_has_4118_getD (codes : List (Option Int)) (j : Nat)
    (hj : j < codes.length) :
    ((seg_has_4118 codes).getD j false = true ↔
      ∃ k, k < codes.length ∧
        (segIds codes).getD k 0 = (segIds codes).getD j 0 ∧
        codes.getD k none = some 4118) := by
  have hsl : (segIds codes).length = codes.length := segIds_length codes
  have hj' : j < (segIds codes).length := by omega
  have hmap : (seg_has_4118 codes).getD j false =
      ((segIds codes).zip codes).any
        (fun q => decide (q.1 = (segIds codes).getD j 0 ∧ q.2 = some 4118)) := by
    simp only [seg_has_4118]
    rw [List.getD_eq_getElem?_getD, ← List.get?_eq_getElem?, List.get?_map,
      get?_eq_some_getD (segIds codes) 0 j hj']
    simp
  rw [hmap, List.any_eq_true]
  constructor
  · rintro ⟨q, hqmem, hqp⟩
    rcases List.mem_iff_get?.1 hqmem with ⟨k, hk⟩
    have hklt : k < codes.length := by
      by_contra hge
      have h1 : (segIds codes).get? k = none := List.get?_eq_none.2 (by omega)
      rw [zip_get?, h1] at hk
      exact Option.noConfusion hk
    have hk1 : (segIds codes).get? k = some ((segIds codes).getD k 0) :=
      get?_eq_some_getD _ 0 k (by omega)
    have hk2 : codes.get? k = some (codes.getD k none) :=
      get?_eq_some_getD _ none k hklt
    rw [zip_get?, hk1, hk2] at hk
    have hq := Option.some.inj hk
    rcases of_decide_eq_true hqp with ⟨hp1, hp2⟩
    refine ⟨k, hklt, ?_, ?_⟩
    · rw [← hq] at hp1
      exact hp1
    · rw [← hq] at hp2
      exact hp2
  · rintro ⟨k, hklt, hsid, hcode⟩
    refine ⟨((segIds codes).getD k 0, codes.getD k none), ?_, ?_⟩
    · apply List.mem_iff_get?.2
      refine ⟨k, ?_⟩
      rw [zip_get?, get?_eq_some_getD (segIds codes) 0 k (by omega),
        get?_eq_some_getD codes none k hklt]
    · exact decide_eq_true (by exact ⟨hsid, hcode⟩)

/-- Bridge to the spec's segment notion: a non-missing row is marked iff
some row with code 4118 is connected to it by an interval of non-missing
codes. -/
theorem marked_iff_segment (codes : List (Option Int)) (j : Nat)
    (hj : j < codes.length) (hcode : (codes.getD j none).isSome = true) :
    ((seg_has_4118 codes).getD j false = true ↔
      ∃ k, k < codes.length ∧ codes.getD k none = some 4118 ∧
        ∀ m, min j k ≤ m → m ≤ max j k → (codes.getD m none).isSome = true) := by
  rw [seg_has_4118_getD codes j hj]
  constructor
  · rintro ⟨k, hklt, hsid, hck⟩
    refine ⟨k, hklt, hck, ?_⟩
    rcases Nat.le_total j k with hjk | hkj
    · have hiff := segIds_eq_iff codes j k hjk hklt
      have hmid := hiff.1 hsid.symm
      intro m hm1 hm2
      rw [min_eq_left hjk] at hm1
      rw [max_eq_right hjk] at hm2
      rcases Nat.eq_or_lt_of_le hm1 with hjm | hjm
      · rw [← hjm]; exact hcode
      · exact hmid m hjm hm2
    · have hiff := segIds_eq_iff codes k j hkj hj
      have hmid := hiff.1 hsid
      intro m hm1 hm2
      rw [min_eq_right hkj] at hm1
      rw [max_eq_left hkj] at hm2
      rcases Nat.eq_or_lt_of_le hm1 with hkm | hkm
      · rw [← hkm, hck]; rfl
      · exact hmid m hkm hm2
  · rintro ⟨k, hklt, hck, hall⟩
    refine ⟨k, hklt, ?_, hck⟩
    rcases Nat.le_total j k with hjk | hkj
    · have hiff := segIds_eq_iff codes j k hjk hklt
      refine (hiff.2 ?_).symm
      intro m hm1 hm2
      exact hall m (by rw [min_eq_left hjk]; omega) (by rw [max_eq_right hjk]; omega)
    · have hiff := segIds_eq_iff codes k j hkj hj
      refine hiff.2 ?_
      intro m hm1 hm2
      exact hall m (by rw [min_eq_right hkj]; omega) (by rw [max_eq_left hkj]; omega)

/-! ### Relating the buckets to the input table -/

theorem map_fst_keyedRows (df : List Row) :
    (keyedRows df).map Prod.fst = idxFrom 0 df := by
  rw [keyedRows]
  exact List.map_fst_zip _ _ (le_of_eq (by rw [idxFrom_length, block_key_length]))

theorem only_79991_sublist (df : List Row) :
    (only_79991 df).Sublist (idxFrom 0 df) := by
  rw [← map_fst_keyedRows df]
  exact (List.filter_sublist _).map Prod.fst

theorem rest_rows_sublist (df : List Row) :
    (rest_rows df).Sublist (idxFrom 0 df) := by
  rw [← map_fst_keyedRows df]
  exact (List.filter_sublist _).map Prod.fst

theorem candRows_map_idx (cands : List (Nat × Row)) :
    (candRows cands).map CRow.idx = cands.map Prod.fst := by
  rw [candRows, List.map_map]
  rfl

theorem mem_candRows {cands : List (Nat × Row)} {c : CRow}
    (hc : c ∈ candRows cands) :
    (c.idx, c.row) ∈ cands ∧ c.code = toNum c.row.productExtRef := by
  rcases List.mem_map.1 hc with ⟨p, hp, hpc⟩
  subst hpc
  exact ⟨hp, rfl⟩

theorem keyed_partition_perm (df : List Row) :
    (only_79991 df ++ rest_rows df).Perm (idxFrom 0 df) := by
  have hpred : rest_rows df =
      ((keyedRows df).filter (fun p => !(decide (p.2 = "79991")))).map Prod.fst := by
    rw [rest_rows]
    congr 1
    congr 1
    funext p
    simp [decide_not]
  have hperm :=
    (List.filter_append_perm (fun p => decide (p.2 = "79991")) (keyedRows df)).map Prod.fst
  rw [List.map_append, map_fst_keyedRows df] at hperm
  rw [hpred]
  exact hperm

theorem split_partition_perm (df : List Row) :
    ((split_data df).advertisment ++ (split_data df).without_advertisement).Perm
      (candRows (only_79991 df)) := by
  have hlen : (seg_has_4118 (candCodes (only_79991 df))).length =
      (candRows (only_79991 df)).length := by
    rw [seg_has_4118_length, candCodes_length, candRows_length]
  simpa [split_data] using
    selectBy_append_perm (candRows (only_79991 df))
      (seg_has_4118 (candCodes (only_79991 df))) hlen

/-- Membership of a key in a masked selection, tracked through an
injective key map, is read off the mask. -/
theorem selectBy_mem_map_iff {α β : Type} (f : α → β) :
    ∀ (l : List α) (bs : List Bool), bs.length = l.length →
    (l.map f).Nodup → ∀ (j : Nat) (hj : j < l.length),
    (f (l.get ⟨j, hj⟩) ∈ (selectBy l bs).map f ↔ bs.getD j false = true)
  | [], _, _, _, j, hj => by simp at hj
  | x :: xs, [], h, _, _, _ => by simp at h
  | x :: xs, b :: bs, h, hnd, 0, hj => by
      have hx : f x ∉ xs.map f := by
        rw [List.map, List.nodup_cons] at hnd
        exact hnd.1
      by_cases hb : b = true
      · subst hb
        simp [selectBy]
      · have hb' : b = false := by simpa using hb
        subst hb'
        simp only [selectBy, Bool.false_eq_true, if_false, List.getD_cons_zero]
        constructor
        · intro hmem
          exact absurd
            ((List.map_subset f (selectBy_sublist xs bs).subset) hmem) hx
        · intro hfalse
          exact absurd hfalse (by simp)
  | x :: xs, b :: bs, h, hnd, j + 1, hj => by
      have hlen : bs.length = xs.length := by simpa using h
      have hjx : j < xs.length := by simpa using hj
      have hnd' : (xs.map f).Nodup := by
        rw [List.map, List.nodup_cons] at hnd
        exact hnd.2
      have hx : f x ∉ xs.map f := by
        rw [List.map, List.nodup_cons] at hnd
        exact hnd.1
      have ih := selectBy_mem_map_iff f xs bs hlen hnd' j hjx
      have hget : (x :: xs).get ⟨j + 1, hj⟩ = xs.get ⟨j, hjx⟩ := rfl
      have hne : f (xs.get ⟨j, hjx⟩) ≠ f x := by
        intro heq
        exact hx (heq ▸ List.mem_map.2 ⟨xs.get ⟨j, hjx⟩, xs.get_mem _ _, rfl⟩)
      by_cases hb : b = true
      · subst hb
        simp only [selectBy, if_pos, List.getD_cons_succ, hget, List.map]
        rw [List.mem_cons]
        constructor
        · rintro (heq | hmem)
          · exact absurd heq hne
          · exact ih.1 hmem
        · intro hbs
          exact Or.inr (ih.2 hbs)
      · have hb' : b = false := by simpa using hb
        subst hb'
        simpa [selectBy, hget] using ih

/-! ### Extrema of the date column -/

theorem le_foldl_max : ∀ (l : List String) (a : String), a ≤ l.foldl max a
  | [], a => le_refl a
  | x :: xs, a =>
      le_trans (le_max_left a x) (le_foldl_max xs (max a x))

theorem foldl_max_of_mem : ∀ (l : List String) (a x : String), x ∈ l →
    x ≤ l.foldl max a
  | [], _, _, hx => by simp at hx
  | y :: ys, a, x, hx => by
      rcases List.mem_cons.1 hx with hxy | hmem
      · subst hxy
        exact le_trans (le_max_right a x) (le_foldl_max ys (max a x))
      · exact foldl_max_of_mem ys (max a y) x hmem

theorem foldl_max_mem : ∀ (l : List String) (a : String),
    l.foldl max a = a ∨ l.foldl max a ∈ l
  | [], a => Or.inl rfl
  | x :: xs, a => by
      rcases foldl_max_mem xs (max a x) with heq | hmem
      · rcases max_choice a x with hax | hax
        · left
          rw [List.foldl, heq, hax]
        · right
          rw [List.foldl, heq, hax]
          exact List.mem_cons_self x xs
      · right
        exact List.mem_cons.2 (Or.inr hmem)

/-! ### Claim theorems -/

/-- C1: for every input table, the Segmenter's classification is a
complete and mutually exclusive partition — the indices of the three
buckets together are a permutation of the input's row indices, so every
input row lands in exactly one bucket (count 1); and the Normalizer never
reassigns a bucket: the candidate buckets keep exactly their rows and the
rest bucket keeps a sublist of its rows (the "Other Payment" drop removes
rows, it never moves one). -/
theorem claim_C1_partition (df : List Row) :
    (((split_data df).without_advertisement.map CRow.idx ++
      ((split_data df).advertisment.map CRow.idx ++
        (split_data df).rest.map Prod.fst)).Perm (List.range df.length))
    ∧ (∀ i, i < df.length →
        ((split_data df).without_advertisement.map CRow.idx ++
          ((split_data df).advertisment.map CRow.idx ++
            (split_data df).rest.map Prod.fst)).count i = 1)
    ∧ (prepare_columns_cand (split_data df).advertisment).rows.map NRow.idx =
        (split_data df).advertisment.map CRow.idx
    ∧ (prepare_columns_cand (split_data df).without_advertisement).rows.map NRow.idx =
        (split_data df).without_advertisement.map CRow.idx
    ∧ ((prepare_columns_rest (split_data df).rest).rows.map NRow.idx).Sublist
        ((split_data df).rest.map Prod.fst) := by
  have h1 : (((split_data df).without_advertisement ++
      (split_data df).advertisment)).Perm (candRows (only_79991 df)) :=
    List.perm_append_comm.trans (split_partition_perm df)
  have h2 := h1.map CRow.idx
  rw [List.map_append, candRows_map_idx] at h2
  have h3 := (keyed_partition_perm df).map Prod.fst
  rw [List.map_append, idxFrom_map_fst] at h3
  have hrest : (split_data df).rest = rest_rows df := rfl
  have hmain : (((split_data df).without_advertisement.map CRow.idx ++
      ((split_data df).advertisment.map CRow.idx ++
        (split_data df).rest.map Prod.fst)).Perm (List.range df.length)) := by
    rw [← List.append_assoc, List.range_eq_range', hrest]
    exact (h2.append_right ((rest_rows df).map Prod.fst)).trans h3
  refine ⟨hmain, ?_, ?_, ?_, ?_⟩
  · intro i hi
    rw [hmain.count_eq]
    exact List.count_eq_one_of_mem (List.nodup_range df.length) (List.mem_range.2 hi)
  · rw [show (prepare_columns_cand (split_data df).advertisment).rows =
        (split_data df).advertisment.map normRowCand from rfl, List.map_map]
    rfl
  · rw [show (prepare_columns_cand (split_data df).without_advertisement).rows =
        (split_data df).without_advertisement.map normRowCand from rfl, List.map_map]
    rfl
  · have hsub :=
      (@List.filter_sublist NRow (fun n => decide (n.productName ≠ "Other Payment"))
        ((split_data df).rest.map normRowRest)).map NRow.idx
    have heq : (((split_data df).rest.map normRowRest)).map NRow.idx =
        (split_data df).rest.map Prod.fst := by
      rw [List.map_map]
      rfl
    exact heq ▸ hsub

theorem getD_map_not (bs : List Bool) (j : Nat) (hj : j < bs.length) :
    (bs.map not).getD j false = !(bs.getD j false) := by
  rw [List.getD_eq_getElem?_getD, List.getD_eq_getElem?_getD, List.getElem?_map,
    List.getElem?_eq_getElem hj]
  simp

theorem candIdx_nodup (df : List Row) :
    ((candRows (only_79991 df)).map CRow.idx).Nodup := by
  rw [candRows_map_idx]
  have hsub : ((only_79991 df).map Prod.fst).Sublist ((idxFrom 0 df).map Prod.fst) :=
    (only_79991_sublist df).map Prod.fst
  rw [idxFrom_map_fst] at hsub
  exact hsub.nodup (List.nodup_range' 0 df.length)

/-- C2: a candidate row with a non-missing secondary code lands in the
advertisement bucket exactly when its contiguous segment — the maximal run
of non-missing-code candidate rows containing it — contains a row with
code 4118; otherwise it lands in the without-advertisement bucket. -/
theorem claim_C2_segment_marking (df : List Row) (j : Nat)
    (hj : j < (only_79991 df).length)
    (hcode : ((candCodes (only_79991 df)).getD j none).isSome = true) :
    ((∃ k, k < (only_79991 df).length ∧
        (candCodes (only_79991 df)).getD k none = some 4118 ∧
        ∀ m, min j k ≤ m → m ≤ max j k →
          ((candCodes (only_79991 df)).getD m none).isSome = true) ↔
      ((only_79991 df).get ⟨j, hj⟩).1 ∈ (split_data df).advertisment.map CRow.idx)
    ∧ ((¬ ∃ k, k < (only_79991 df).length ∧
        (candCodes (only_79991 df)).getD k none = some 4118 ∧
        ∀ m, min j k ≤ m → m ≤ max j k →
          ((candCodes (only_79991 df)).getD m none).isSome = true) ↔
      ((only_79991 df).get ⟨j, hj⟩).1 ∈
        (split_data df).without_advertisement.map CRow.idx) := by
  have hclen : (candCodes (only_79991 df)).length = (only_79991 df).length :=
    candCodes_length _
  have hrlen : (candRows (only_79991 df)).length = (only_79991 df).length :=
    candRows_length _
  have hmlen : (seg_has_4118 (candCodes (only_79991 df))).length =
      (candRows (only_79991 df)).length := by
    rw [seg_has_4118_length, hclen, hrlen]
  have hj' : j < (candRows (only_79991 df)).length := by omega
  have hjc : j < (candCodes (only_79991 df)).length := by omega
  have hmarked := marked_iff_segment (candCodes (only_79991 df)) j hjc hcode
  have hidx : CRow.idx ((candRows (only_79991 df)).get ⟨j, hj'⟩) =
      ((only_79991 df).get ⟨j, hj⟩).1 := by
    have h1 : (candRows (only_79991 df)).get? j =
        ((only_79991 df).get? j).map
          (fun p => (⟨p.1, p.2, toNum p.2.productExtRef⟩ : CRow)) :=
      List.get?_map _ _ _
    rw [List.get?_eq_get hj', List.get?_eq_get hj] at h1
    simp only [Option.map_some'] at h1
    rw [Option.some.inj h1]
  have hadv : (split_data df).advertisment =
      selectBy (candRows (only_79991 df))
        (seg_has_4118 (candCodes (only_79991 df))) := rfl
  have hwo : (split_data df).without_advertisement =
      selectBy (candRows (only_79991 df))
        ((seg_has_4118 (candCodes (only_79991 df))).map not) := rfl
  have hmemAdv := selectBy_mem_map_iff CRow.idx (candRows (only_79991 df))
    (seg_has_4118 (candCodes (only_79991 df))) hmlen (candIdx_nodup df) j hj'
  have hmemWo := selectBy_mem_map_iff CRow.idx (candRows (only_79991 df))
    ((seg_has_4118 (candCodes (only_79991 df))).map not)
    (by rw [List.length_map]; exact hmlen) (candIdx_nodup df) j hj'
  rw [hidx] at hmemAdv hmemWo
  have hjm : j < (seg_has_4118 (candCodes (only_79991 df))).length := by omega
  rw [getD_map_not _ j hjm] at hmemWo
  rw [hclen] at hmarked
  constructor
  · exact hmarked.symm.trans hmemAdv.symm
  · have hmem' : ((only_79991 df).get ⟨j, hj⟩).1 ∈
        (split_data df).without_advertisement.map CRow.idx ↔
        ¬((seg_has_4118 (candCodes (only_79991 df))).getD j false = true) := by
      refine hmemWo.trans ?_
      simp
    exact (not_congr hmarked.symm).trans hmem'.symm

theorem mem_only79991_iff (df : List Row) (j : Nat) (hj : j < df.length) :
    j ∈ (only_79991 df).map Prod.fst ↔ (block_key df).getD j "" = "79991" := by
  have heq : (only_79991 df).map Prod.fst =
      ((keyedRows df).filter (fun q => decide (q.2 = "79991"))).map (fun q => q.1.1) := by
    rw [only_79991, List.map_map]
    rfl
  rw [heq]
  exact (mem_keyFiltered_iff df (fun s => decide (s = "79991")) j hj).trans (by simp)

theorem mem_rest_iff (df : List Row) (j : Nat) (hj : j < df.length) :
    j ∈ (rest_rows df).map Prod.fst ↔ ¬((block_key df).getD j "" = "79991") := by
  have heq : (rest_rows df).map Prod.fst =
      ((keyedRows df).filter (fun q => decide (q.2 ≠ "79991"))).map (fun q => q.1.1) := by
    rw [rest_rows, List.map_map]
    rfl
  rw [heq]
  exact (mem_keyFiltered_iff df (fun s => decide (s ≠ "79991")) j hj).trans (by simp)

/-- C4: the grouping key treats empty / textual-nan reference cells as
missing, forward-fills from the nearest preceding non-missing cell, and
renders the result as an integer-like string; a row is a candidate iff its
key is `"79991"`, and otherwise it goes to the rest bucket. -/
theorem claim_C4_grouping_key (df : List Row) (j : Nat) (hj : j < df.length) :
    ((block_key df).getD j "" =
      (match lastNonNa ((df.map (fun r => replaceNaLike r.paymentExtRef)).take (j + 1)) with
       | some c => keyStr c
       | none => "<NA>"))
    ∧ ((block_key df).getD j "" = "79991" ↔ j ∈ (only_79991 df).map Prod.fst)
    ∧ (¬((block_key df).getD j "" = "79991") ↔
        j ∈ (split_data df).rest.map Prod.fst) := by
  refine ⟨block_key_getD df j hj, (mem_only79991_iff df j hj).symm, ?_⟩
  exact (mem_rest_iff df j hj).symm

/-- C9: a row in a leading run of missing reference keys (nothing before
it to inherit via forward-fill) gets the key `"<NA>"` and is deterministically
placed in the rest bucket, never in the advertisement or
without-advertisement bucket. -/
theorem claim_C9_leading_missing (df : List Row) (j : Nat) (hj : j < df.length)
    (hlead : ∀ m, m ≤ j → replaceNaLike ((df.getD m default).paymentExtRef) = Cell.na) :
    (block_key df).getD j "" = "<NA>"
    ∧ j ∈ (split_data df).rest.map Prod.fst
    ∧ j ∉ (split_data df).advertisment.map CRow.idx
    ∧ j ∉ (split_data df).without_advertisement.map CRow.idx := by
  have hkey : (block_key df).getD j "" = "<NA>" := by
    rw [block_key_getD df j hj]
    have hna : lastNonNa ((df.map (fun r => replaceNaLike r.paymentExtRef)).take (j + 1)) =
        none := by
      apply lastNonNa_of_all_na
      intro c hc
      rcases List.mem_iff_get?.1 hc with ⟨m, hm⟩
      have hmlt : m < j + 1 := by
        by_contra hge
        rw [List.get?_take_eq_none (by omega)] at hm
        exact Option.noConfusion hm
      have hmdf : m < df.length := by omega
      rw [List.get?_take hmlt, List.get?_map, get?_eq_some_getD df default m hmdf] at hm
      simp only [Option.map_some'] at hm
      rw [← Option.some.inj hm]
      exact hlead m (by omega)
    rw [hna]
  have hnotcand : j ∉ (only_79991 df).map Prod.fst := by
    rw [mem_only79991_iff df j hj, hkey]
    simp
  refine ⟨hkey, ?_, ?_, ?_⟩
  · exact (mem_rest_iff df j hj).2 (by rw [hkey]; simp)
  · intro hmem
    apply hnotcand
    rw [← candRows_map_idx]
    exact List.map_subset CRow.idx (selectBy_sublist _ _).subset hmem
  · intro hmem
    apply hnotcand
    rw [← candRows_map_idx]
    exact List.map_subset CRow.idx (selectBy_sublist _ _).subset hmem

/-- C10: segmentation's only field effect is overwriting the secondary
product reference of candidate rows with its numeric coercion (a
non-numeric value becomes missing); rest rows pass through literally, and
every other field of a candidate row is carried unchanged in its original
row. -/
theorem claim_C10_frame (df : List Row) :
    ((split_data df).rest.Sublist (idxFrom 0 df))
    ∧ (∀ c : CRow, (c ∈ (split_data df).advertisment ∨
        c ∈ (split_data df).without_advertisement) →
        (c.idx, c.row) ∈ idxFrom 0 df ∧ c.code = toNum c.row.productExtRef)
    ∧ toNum (Cell.s "not a number") = none := by
  refine ⟨rest_rows_sublist df, ?_, rfl⟩
  intro c hc
  have hcrows : c ∈ candRows (only_79991 df) := by
    rcases hc with hmem | hmem
    · exact (selectBy_sublist _ _).subset hmem
    · exact (selectBy_sublist _ _).subset hmem
  rcases mem_candRows hcrows with ⟨hmem, hcode⟩
  exact ⟨(only_79991_sublist df).subset hmem, hcode⟩

/-- C3: a transaction (a bucket's rows grouped by transaction id, debit
and credit each summed) is classified balanced exactly when the absolute
grouped difference is at most 0.01, equivalently exactly when it is not
counted among the unbalanced transactions; the claim's two concrete
examples evaluate as stated (debit 100 vs credit 99.995 balanced and not
counted, debit 100 vs credit 99.98 unbalanced and counted). -/
theorem claim_C3_balance_tolerance :
    (∀ (rows : List NRow) (t : Int),
      (txBalancedB rows t = true ↔ |txDebit rows t - txCredit rows t| ≤ 1/100))
    ∧ (∀ (rows : List NRow) (t : Int), t ∈ txIds rows →
        (txBalancedB rows t = true ↔ t ∉ unbalancedTxIds rows))
    ∧ get_balance_validation true true true exRowsBalanced =
        Except.ok (some ⟨100, 99995/1000, 1/200, true, some 0⟩)
    ∧ get_balance_validation true true true exRowsUnbalanced =
        Except.ok (some ⟨100, 4999/50, 1/50, false, some 1⟩) := by
  refine ⟨?_, ?_, ?_, ?_⟩
  · intro rows t
    simp [txBalancedB, txDiff]
  · intro rows t ht
    rw [unbalancedTxIds, List.mem_filter]
    simp only [txBalancedB, txUnbalanced, txDiff, decide_eq_true_eq, not_and, ht,
      forall_const]
    constructor
    · intro hle
      simpa using hle
    · intro hlt
      simpa using hlt
  · simp only [get_balance_validation, exRowsBalanced, txIds, txDebit, txCredit, colSum,
      txDiff, txUnbalanced, unbalancedTxIds, List.dedup, List.map, List.filter,
      List.filterMap, List.isEmpty, List.sum, List.foldr, List.pwFilter,
      Bool.and_self, Bool.true_and]
    norm_num
    have habs : |(1:ℚ)/200| = 1/200 := abs_of_pos (by norm_num)
    have hlt : ¬((1:ℚ)/100 < 1/200) := by norm_num
    rw [habs, decide_eq_false hlt]
    norm_num
  · simp only [get_balance_validation, exRowsUnbalanced, txIds, txDebit, txCredit, colSum,
      txDiff, txUnbalanced, unbalancedTxIds, List.dedup, List.map, List.filter,
      List.filterMap, List.isEmpty, List.sum, List.foldr, List.pwFilter,
      Bool.and_self, Bool.true_and]
    norm_num
    have habs : |(1:ℚ)/50| = 1/50 := abs_of_pos (by norm_num)
    have hlt : ((1:ℚ)/100 < 1/50) := by norm_num
    rw [habs, decide_eq_true hlt]
    norm_num

/-- C7, counterexample: a non-empty bucket whose missing fields include
the debit column (here: transaction id and debit absent, credit present;
the required fields are "not all present") is not handled by the
fallback — the else branch's unconditional column read raises `KeyError`
instead of reporting totals, so the claim's "rather than failing" is
false at this input. -/
theorem claim_C7_counterexample :
    exRowsUnbalanced ≠ []
    ∧ get_balance_validation false false true exRowsUnbalanced = Except.error ()
    ∧ ¬∃ info : BalanceInfo,
        get_balance_validation false false true exRowsUnbalanced =
          Except.ok (some info) := by
  refine ⟨by decide, rfl, ?_⟩
  rintro ⟨info, hinfo⟩
  rw [show get_balance_validation false false true exRowsUnbalanced =
    Except.error () from rfl] at hinfo
  exact Except.noConfusion hinfo

/-- C7, amended: for a non-empty bucket whose required fields are not
all present, the validator falls back to the simple column-sum
comparison only when the debit and credit fields are both present (so
only the transaction id is missing): it then reports total debit, total
credit, their difference and a balanced flag without per-transaction
granularity and omits the unbalanced-transaction count; when the debit
or credit field is itself missing, the fallback's unconditional column
reads raise `KeyError` instead of producing a result. -/
theorem claim_C7_fallback (rows : List NRow) (h : rows ≠ [])
    (hasTx hasDebit hasCredit : Bool)
    (hnotall : ¬(hasTx = true ∧ hasDebit = true ∧ hasCredit = true)) :
    (hasDebit = true → hasCredit = true →
      ∃ info : BalanceInfo,
        get_balance_validation hasTx hasDebit hasCredit rows = Except.ok (some info)
        ∧ info.totalDebit = colSum (fun r => r.debit) rows
        ∧ info.totalCredit = colSum (fun r => r.credit) rows
        ∧ info.difference = info.totalDebit - info.totalCredit
        ∧ (info.balanced = true ↔ |info.difference| ≤ 1/100)
        ∧ info.unbalancedCount = none)
    ∧ ((hasDebit = false ∨ hasCredit = false) →
        get_balance_validation hasTx hasDebit hasCredit rows = Except.error ()) := by
  have hne : rows.isEmpty = false := by
    simpa [List.isEmpty_iff] using h
  constructor
  · intro hd hc
    subst hd
    subst hc
    have htx : hasTx = false := by
      cases hasTx with
      | true => exact absurd ⟨rfl, rfl, rfl⟩ hnotall
      | false => rfl
    subst htx
    refine ⟨⟨colSum (fun r => r.debit) rows, colSum (fun r => r.credit) rows,
        colSum (fun r => r.debit) rows - colSum (fun r => r.credit) rows,
        decide (|colSum (fun r => r.debit) rows - colSum (fun r => r.credit) rows| ≤ 1/100),
        none⟩, ?_, rfl, rfl, rfl, by simp, rfl⟩
    simp [get_balance_validation, hne]
  · intro hdc
    rcases hdc with hd | hc
    · subst hd
      simp [get_balance_validation, hne]
    · subst hc
      simp [get_balance_validation, hne]

/-- C5: the summary's appended grand-total row has debit total zero for
every input, and credit total equal to the credit-column sum over all
rows of the rest bucket; the concrete excluded-account bucket shows the
credit total counting a row that yields no summary entry. -/
theorem claim_C5_grand_total :
    (∀ b : NBucket, (create_excel_summary b).totalDebit = 0
      ∧ (create_excel_summary b).totalCredit = colSum (fun r => r.credit) b.rows)
    ∧ (create_excel_summary exBucketExcluded).totalCredit = 50
    ∧ summaryEntries exBucketExcluded.rows = [] := by
  refine ⟨?_, ?_, by decide⟩
  case refine_2 =>
    simp only [create_excel_summary, exBucketExcluded, colSum, List.filterMap,
      List.isEmpty, List.sum, List.foldr]
    norm_num
  intro b
  refine ⟨rfl, ?_⟩
  by_cases hb : b.rows.isEmpty
  · rw [List.isEmpty_iff] at hb
    simp [create_excel_summary, hb, colSum]
  · simp [create_excel_summary, hb]

/-- C6: no emitted summary entry carries an excluded credit account, yet
the concrete excluded-account row (account 70001, product "X", credit 50)
still contributes its 50 to the grand-total credit sum. -/
theorem claim_C6_excluded_accounts :
    (∀ (b : NBucket) (e : Cell × String × ℚ), e ∈ (create_excel_summary b).entries →
      isExcludedAccount e.1 = false)
    ∧ (create_excel_summary exBucketExcluded).entries = []
    ∧ (create_excel_summary exBucketExcluded).totalCredit = 50 := by
  refine ⟨?_, by decide, ?_⟩
  case refine_2 =>
    simp only [create_excel_summary, exBucketExcluded, colSum, List.filterMap,
      List.isEmpty, List.sum, List.foldr]
    norm_num
  intro b e he
  have he' : e ∈ summaryEntries b.rows := he
  rcases List.mem_filterMap.1 he' with ⟨k, hk, hke⟩
  rcases List.mem_filter.1 hk with ⟨hkmem, hkp⟩
  simp only at hke
  by_cases hpos : 0 < groupCredit b.rows k
  · rw [if_pos hpos] at hke
    have hek := Option.some.inj hke
    have he1 : e.1 = k.1 := by rw [← hek]
    rw [he1]
    simpa using hkp
  · rw [if_neg hpos] at hke
    exact absurd hke (by simp)

/-- Behaviour of the order-date computation on a normalized bucket: none
for an empty bucket, otherwise the maximum present date string (the empty
string when every date is missing). -/
theorem orderDate_spec (rows : List NRow) :
    (rows = [] → mkOrderDate rows = none)
    ∧ (rows ≠ [] → mkOrderDate rows = some (maxDateStr rows)
        ∧ (∀ r ∈ rows, ∀ s, r.txDate = some s → s ≤ maxDateStr rows)
        ∧ (maxDateStr rows = "" ∨ ∃ r ∈ rows, r.txDate = some (maxDateStr rows))) := by
  constructor
  · intro hnil
    simp [mkOrderDate, hnil]
  · intro hne
    have hb : rows.isEmpty = false := by simpa [List.isEmpty_iff] using hne
    refine ⟨by simp [mkOrderDate, hb], ?_, ?_⟩
    · intro r hr s hs
      exact foldl_max_of_mem _ "" s (List.mem_filterMap.2 ⟨r, hr, hs⟩)
    · rcases foldl_max_mem (rows.filterMap (fun r => r.txDate)) "" with heq | hmem
      · exact Or.inl heq
      · right
        rcases List.mem_filterMap.1 hmem with ⟨r, hr, hrd⟩
        exact ⟨r, hr, hrd⟩

/-- C8, counterexample: on a table with no candidate rows the
advertisement bucket is empty and, after normalization, carries no
order-date column at all (`none`), not an empty order-date value — the
claim's "empty when the bucket is empty" fails. -/
theorem claim_C8_counterexample :
    (prepare_columns_cand (split_data exDfNoCand).advertisment).rows = []
    ∧ (prepare_columns_cand (split_data exDfNoCand).advertisment).orderDate = none
    ∧ ¬((prepare_columns_cand (split_data exDfNoCand).advertisment).orderDate
        = some "") := by
  decide

/-- C8, amended: after normalization every **non-empty** bucket carries
the order-date column, whose value is the maximum date string present in
that bucket (the empty string when every date in the bucket is missing);
an empty bucket carries no order-date column; the value is computed from
that bucket's rows alone. -/
theorem claim_C8_order_date :
    (∀ b : List CRow,
      ((prepare_columns_cand b).rows = [] → (prepare_columns_cand b).orderDate = none)
      ∧ ((prepare_columns_cand b).rows ≠ [] →
          (prepare_columns_cand b).orderDate =
            some (maxDateStr (prepare_columns_cand b).rows)
          ∧ (∀ r ∈ (prepare_columns_cand b).rows, ∀ s, r.txDate = some s →
              s ≤ maxDateStr (prepare_columns_cand b).rows)
          ∧ (maxDateStr (prepare_columns_cand b).rows = "" ∨
              ∃ r ∈ (prepare_columns_cand b).rows,
                r.txDate = some (maxDateStr (prepare_columns_cand b).rows))))
    ∧ (∀ b : List (Nat × Row),
      ((prepare_columns_rest b).rows = [] → (prepare_columns_rest b).orderDate = none)
      ∧ ((prepare_columns_rest b).rows ≠ [] →
          (prepare_columns_rest b).orderDate =
            some (maxDateStr (prepare_columns_rest b).rows)
          ∧ (∀ r ∈ (prepare_columns_rest b).rows, ∀ s, r.txDate = some s →
              s ≤ maxDateStr (prepare_columns_rest b).rows)
          ∧ (maxDateStr (prepare_columns_rest b).rows = "" ∨
              ∃ r ∈ (prepare_columns_rest b).rows,
                r.txDate = some (maxDateStr (prepare_columns_rest b).rows)))) := by
  constructor
  · intro b
    exact orderDate_spec (prepare_columns_cand b).rows
  · intro b
    exact orderDate_spec (prepare_columns_rest b).rows

/-! ### Witnesses -/

theorem claim_C1_witness :
    0 < exDf.length ∧
    ((split_data exDf).without_advertisement.map CRow.idx ++
      ((split_data exDf).advertisment.map CRow.idx ++
        (split_data exDf).rest.map Prod.fst)).count 0 = 1 :=
  ⟨by decide, (claim_C1_partition exDf).2.1 0 (by decide)⟩

theorem claim_C2_witness :
    1 < (only_79991 exDf).length
    ∧ ((candCodes (only_79991 exDf)).getD 1 none).isSome = true
    ∧ ((only_79991 exDf).get ⟨1, by decide⟩).1 ∈
        (split_data exDf).advertisment.map CRow.idx := by
  refine ⟨by decide, by decide, ?_⟩
  refine ((claim_C2_segment_marking exDf 1 (by decide) (by decide)).1).mp ?_
  refine ⟨0, by decide, by decide, ?_⟩
  intro m hm1 hm2
  have hmax : max 1 0 = 1 := by norm_num
  rw [hmax] at hm2
  interval_cases m <;> decide

theorem claim_C3_witness :
    (7 : Int) ∈ txIds exRowsBalanced
    ∧ (txBalancedB exRowsBalanced 7 = true ↔
        (7 : Int) ∉ unbalancedTxIds exRowsBalanced) :=
  ⟨by decide, claim_C3_balance_tolerance.2.1 exRowsBalanced 7 (by decide)⟩

theorem claim_C4_witness :
    0 < exDf.length ∧
    ((block_key exDf).getD 0 "" = "79991" ↔ 0 ∈ (only_79991 exDf).map Prod.fst) :=
  ⟨by decide, (claim_C4_grouping_key exDf 0 (by decide)).2.1⟩

theorem claim_C6_witness :
    (Cell.i 4000, "Y", (30 : ℚ)) ∈ (create_excel_summary exBucketKept).entries
    ∧ isExcludedAccount (Cell.i 4000) = false := by
  have hmem : (Cell.i 4000, "Y", (30 : ℚ)) ∈ (create_excel_summary exBucketKept).entries := by
    simp only [create_excel_summary, exBucketKept, summaryEntries, groupKeys,
      revenueRows, groupCredit, colSum, List.filter, List.map, List.dedup,
      List.filterMap, List.pwFilter, List.sum, List.foldr, isExcludedAccount]
    norm_num
  exact ⟨hmem, claim_C6_excluded_accounts.1 exBucketKept _ hmem⟩

theorem claim_C7_witness :
    exRowsUnbalanced ≠ []
    ∧ ¬(false = true ∧ true = true ∧ true = true)
    ∧ ∃ info : BalanceInfo,
        get_balance_validation false true true exRowsUnbalanced = Except.ok (some info)
        ∧ info.totalDebit = colSum (fun r => r.debit) exRowsUnbalanced
        ∧ info.totalCredit = colSum (fun r => r.credit) exRowsUnbalanced
        ∧ info.difference = info.totalDebit - info.totalCredit
        ∧ (info.balanced = true ↔ |info.difference| ≤ 1/100)
        ∧ info.unbalancedCount = none :=
  ⟨by decide, by decide,
    (claim_C7_fallback exRowsUnbalanced (by decide) false true true (by decide)).1 rfl rfl⟩

theorem claim_C8_witness :
    (prepare_columns_cand (split_data exDf).advertisment).rows ≠ []
    ∧ (prepare_columns_cand (split_data exDf).advertisment).orderDate =
        some (maxDateStr (prepare_columns_cand (split_data exDf).advertisment).rows) :=
  ⟨by decide, ((claim_C8_order_date.1 (split_data exDf).advertisment).2 (by decide)).1⟩

theorem claim_C9_witness :
    1 < exDfLeadingNa.length
    ∧ 1 ∈ (split_data exDfLeadingNa).rest.map Prod.fst := by
  have hl : ∀ m, m ≤ 1 →
      replaceNaLike ((exDfLeadingNa.getD m default).paymentExtRef) = Cell.na := by
    intro m hm
    interval_cases m <;> decide
  exact ⟨by decide, (claim_C9_leading_missing exDfLeadingNa 1 (by decide) hl).2.1⟩

theorem claim_C10_witness :
    (exCRow ∈ (split_data exDfPlain).advertisment ∨
      exCRow ∈ (split_data exDfPlain).without_advertisement)
    ∧ ((exCRow.idx, exCRow.row) ∈ idxFrom 0 exDfPlain
        ∧ exCRow.code = toNum exCRow.row.productExtRef) := by
  have hmem : exCRow ∈ (split_data exDfPlain).advertisment ∨
      exCRow ∈ (split_data exDfPlain).without_advertisement := Or.inl (by decide)
  exact ⟨hmem, (claim_C10_frame exDfPlain).2.1 exCRow hmem⟩

end Bookkeeping
